import Mathlib

/-!
Shallow embedding of the closeShave backend search core
(`backend/app/utils/price_parser.py`, `geolocation.py`, `rate_limiter.py`,
`database.py`, `api/routes.py`, and the scraper parse loops of
`scrapers/amazon.py` and `scrapers/duckduckgo.py`), together with proofs
about the spec's claims over that embedding.

Python floats are embedded as rationals (`ℚ`); Python `round(x, 2)` is
embedded as exact round-half-to-even at two decimal places.
-/

namespace CloseShave

/-! ### Price normalizer (`app/utils/price_parser.py`) -/

/-- Round-half-to-even to an integer, the rounding Python's builtin `round`
uses (here on exact rationals rather than binary floats). -/
def roundHalfEven (x : ℚ) : ℤ :=
  let f : ℤ := ⌊x⌋
  let r : ℚ := x - f
  if r < 1/2 then f
  else if 1/2 < r then f + 1
  else if f % 2 = 0 then f else f + 1

/-- Python `round(x, 2)`. -/
def pyRound2 (x : ℚ) : ℚ := (roundHalfEven (x * 100) : ℚ) / 100

/-- `PriceParser.normalize_price`: `round(price, 2)`. -/
def normalize_price (price : ℚ) : ℚ := pyRound2 price

/-- `PriceParser.calculate_total`: `round(base_price + shipping + tax, 2)`. -/
def calculate_total (base_price shipping tax : ℚ) : ℚ :=
  normalize_price (base_price + shipping + tax)

/-- `PriceParser.calculate_tax`: `round(base_price * tax_rate, 2)`. -/
def calculate_tax (base_price tax_rate : ℚ) : ℚ :=
  normalize_price (base_price * tax_rate)

/-- ASCII decimal digit, the `\d` of the price regex. -/
def isDigitC (c : Char) : Bool := 48 ≤ c.toNat && c.toNat ≤ 57

/-- Python `str.strip` whitespace (space, tab, newline, return, vtab, formfeed). -/
def pyIsSpace (c : Char) : Bool :=
  c.toNat = 32 || c.toNat = 9 || c.toNat = 10 || c.toNat = 13 ||
  c.toNat = 11 || c.toNat = 12

/-- `price_text.strip()`: drop leading and trailing whitespace. -/
def pyStrip (cs : List Char) : List Char :=
  ((cs.dropWhile pyIsSpace).reverse.dropWhile pyIsSpace).reverse

/-- `price_text.replace(",", "")`. -/
def removeCommas (cs : List Char) : List Char :=
  cs.filter (fun c => c ≠ ',')

def digitVal (c : Char) : ℕ := c.toNat - 48

def digitsToNat (ds : List Char) : ℕ :=
  ds.foldl (fun acc c => acc * 10 + digitVal c) 0

/-- Value of the fractional digit block: `ds` read as `0.ds`. -/
def fracValue (ds : List Char) : ℚ :=
  (digitsToNat ds : ℚ) / ((10 : ℚ) ^ ds.length)

/-- The capture of the regex `(\d+\.?\d*)` anchored at `cs` (whose head is a
digit): the maximal digit run, then an optional dot followed by a maximal
digit run.  Returns (integer digits, fraction digits). -/
def numericCapture (cs : List Char) : List Char × List Char :=
  let intDigits := cs.takeWhile isDigitC
  let rest := cs.drop intDigits.length
  match rest with
  | '.' :: r2 => (intDigits, r2.takeWhile isDigitC)
  | _ => (intDigits, [])

/-- `re.search(r"(\d+\.?\d*)", ...)` followed by `float(...)`: the value of
the leftmost numeric substring, if any.  (The leftmost match of this regex
starts at the first digit of the text.) -/
def firstNumericValue : List Char → Option ℚ
  | [] => none
  | c :: rest =>
    if isDigitC c then
      let cap := numericCapture (c :: rest)
      some ((digitsToNat cap.1 : ℚ) + fracValue cap.2)
    else firstNumericValue rest

/-- `PriceParser.parse_price`.  The `float` conversion in the source cannot
fail on a match of this regex, so the embedding is total and the only `none`
results are the explicit early return on falsy input and the no-match case. -/
def parse_price (s : String) : Option ℚ :=
  if s.data = [] then none
  else firstNumericValue (removeCommas (pyStrip s.data))

/-- Python `str.lower()`, for the ASCII range the scraped titles, brands,
merchant names and state codes use. -/
def charLower (c : Char) : Char :=
  if 65 ≤ c.toNat && c.toNat ≤ 90 then Char.ofNat (c.toNat + 32) else c

/-- Python `str.upper()`, ASCII range. -/
def charUpper (c : Char) : Char :=
  if 97 ≤ c.toNat && c.toNat ≤ 122 then Char.ofNat (c.toNat - 32) else c

def pyLower (s : String) : String := ⟨s.data.map charLower⟩

def pyUpper (s : String) : String := ⟨s.data.map charUpper⟩

/-! ### Data model (`app/models.py`) -/

/-- `Product` (pydantic model, immutable; field updates go through
`model_copy`, embedded as Lean structure update). -/
structure Product where
  title : String
  price : ℚ
  base_price : ℚ
  shipping_cost : ℚ := 0
  tax : ℚ := 0
  total_price : ℚ
  image_url : String
  direct_image_url : String
  product_url : String
  merchant : String
  availability : String := "in_stock"
  merchant_id : Option String := none
  brand : Option String := none
  rating : Option ℚ := none
  review_count : Option ℤ := none
  deriving DecidableEq, Repr

/-- `SearchRequest` (pydantic model). -/
structure SearchRequest where
  query : String
  max_results : ℕ := 20
  min_price : Option ℚ := none
  max_price : Option ℚ := none
  brand : Option String := none
  include_out_of_stock : Bool := true
  deriving DecidableEq, Repr

/-- The location dict built by `GeolocationService.get_location_from_ip`
(always carries all five keys). -/
structure Location where
  country : String
  region : String
  state : String
  city : String
  zip : String
  deriving DecidableEq, Repr

/-- The part of the process configuration (`app/config.py` settings) the
search/enrichment path reads: `is_shipping_enabled()`, `is_tax_enabled()`,
and `settings["tax"]["default_rate"]` (default 0.0). -/
structure Config where
  shippingEnabled : Bool
  taxEnabled : Bool
  defaultTaxRate : ℚ
  deriving DecidableEq, Repr

/-- `SearchResponse` (the fields the claims speak about; `search_time` is
wall-clock and not modelled). -/
structure SearchResponse where
  products : List Product
  total_results : ℕ
  cached : Bool
  location : Option Location
  deriving DecidableEq, Repr

/-! ### Geolocation / tax / shipping (`app/utils/geolocation.py`) -/

/-- `GeolocationService.STATE_TAX_RATES`. -/
def STATE_TAX_RATES : List (String × ℚ) :=
  [("AL", 4/100), ("AK", 0), ("AZ", 56/1000), ("AR", 65/1000), ("CA", 725/10000),
   ("CO", 29/1000), ("CT", 635/10000), ("DE", 0), ("FL", 6/100), ("GA", 4/100),
   ("HI", 4/100), ("ID", 6/100), ("IL", 625/10000), ("IN", 7/100), ("IA", 6/100),
   ("KS", 65/1000), ("KY", 6/100), ("LA", 445/10000), ("ME", 55/1000), ("MD", 6/100),
   ("MA", 625/10000), ("MI", 6/100), ("MN", 6875/100000), ("MS", 7/100), ("MO", 4225/100000),
   ("MT", 0), ("NE", 55/1000), ("NV", 685/10000), ("NH", 0), ("NJ", 6625/100000),
   ("NM", 5125/100000), ("NY", 4/100), ("NC", 475/10000), ("ND", 5/100), ("OH", 575/10000),
   ("OK", 45/1000), ("OR", 0), ("PA", 6/100), ("RI", 7/100), ("SC", 6/100),
   ("SD", 45/1000), ("TN", 7/100), ("TX", 625/10000), ("UT", 61/1000), ("VT", 6/100),
   ("VA", 53/1000), ("WA", 65/1000), ("WV", 6/100), ("WI", 5/100), ("WY", 4/100),
   ("DC", 6/100)]

/-- `GeolocationService.get_location_from_ip(ip)`.  The body only performs a
network lookup when an IP is given; that network response is abstracted as
the `netResult` parameter (on lookup failure or non-success payload the
source also returns `None`, which `netResult = none` covers).  With `ip =
None` the function returns `None` before any lookup. -/
def get_location_from_ip (ip : Option String) (netResult : Option Location) :
    Option Location :=
  match ip with
  | none => none
  | some _ => netResult

/-- `GeolocationService.get_tax_rate(state)`: Python `if not state` treats
both `None` and the empty string as absent. -/
def get_tax_rate (cfg : Config) (state : Option String) : ℚ :=
  match state with
  | none => cfg.defaultTaxRate
  | some s =>
    if s = "" then cfg.defaultTaxRate
    else ((STATE_TAX_RATES.lookup (pyUpper s)).getD 0)

/-- `GeolocationService.estimate_shipping(merchant, base_price)`. -/
def estimate_shipping (cfg : Config) (merchant : String) (base_price : ℚ) : ℚ :=
  if !cfg.shippingEnabled then 0
  else
    let m := pyLower merchant
    if m = "amazon" then (if base_price > 25 then 0 else 599/100)
    else if m = "walmart" then (if base_price > 35 then 0 else 599/100)
    else if m = "target" then (if base_price > 35 then 0 else 599/100)
    else if m = "bestbuy" then (if base_price > 35 then 0 else 599/100)
    else if m = "newegg" then (if base_price > 50 then 0 else 799/100)
    else if m = "ebay" then 599/100
    else 599/100

/-! ### Search orchestration (`app/api/routes.py`, `search_products` and
`enrich_product_with_tax_shipping`) -/

/-- Whether `needle` is a leading block of `hay` (character-exact). -/
def startsWith : List Char → List Char → Bool
  | [], _ => true
  | _ :: _, [] => false
  | a :: as, b :: bs => a = b && startsWith as bs

/-- Python's substring test `needle in hay`. -/
def containsSub (needle : List Char) : List Char → Bool
  | [] => needle.isEmpty
  | c :: rest => startsWith needle (c :: rest) || containsSub needle rest

/-- The filter block of `search_products` (lines 227-233): drop a product
when its base price is below `min_price`, above `max_price`, or (for a
truthy `brand`, i.e. neither `None` nor the empty string) when the
lower-cased brand is not a substring of the lower-cased title. -/
def passesFilters (req : SearchRequest) (p : Product) : Bool :=
  (match req.min_price with
   | some m => !decide (p.base_price < m)
   | none => true) &&
  (match req.max_price with
   | some m => !decide (p.base_price > m)
   | none => true) &&
  (match req.brand with
   | none => true
   | some b => if b = "" then true
       else containsSub (pyLower b).data (pyLower p.title).data)

/-- `enrich_product_with_tax_shipping(product, location)`.  When the passed
location is `None` the source retries `get_location_from_ip()` with no IP,
which returns `None` before consulting the network. -/
def enrich_product_with_tax_shipping (cfg : Config) (product : Product)
    (location : Option Location) : Product :=
  let location := match location with
    | none => get_location_from_ip none none
    | some l => some l
  let shipping_cost :=
    if cfg.shippingEnabled then
      estimate_shipping cfg product.merchant product.base_price
    else 0
  let tax :=
    if cfg.taxEnabled then
      match location with
      | some loc => calculate_tax product.base_price (get_tax_rate cfg (some loc.state))
      | none => 0
    else 0
  let total_price := calculate_total product.base_price shipping_cost tax
  { product with
      shipping_cost := shipping_cost
      tax := tax
      total_price := total_price
      price := total_price }

/-- The sort key relation of `enriched_products.sort(key=lambda p:
p.total_price)`. -/
def totalLe (a b : Product) : Prop := a.total_price ≤ b.total_price

instance : DecidableRel totalLe :=
  fun a b => inferInstanceAs (Decidable (a.total_price ≤ b.total_price))

instance : IsTotal Product totalLe := ⟨fun a b => le_total a.total_price b.total_price⟩

instance : IsTrans Product totalLe := ⟨fun _ _ _ => le_trans⟩

/-- Python's `list.sort` is a stable ascending sort; `List.insertionSort`
with the non-strict key relation is exactly that sort (sortedness,
permutation and stability are proved below). -/
def sortByTotal (l : List Product) : List Product :=
  List.insertionSort totalLe l

/-- The `enriched_products` list built by the filter-then-enrich loop of
`search_products` (lines 225-237), with the location taken from the no-IP
`get_location_from_ip()` call on line 222. -/
def enrichedOf (cfg : Config) (req : SearchRequest) (all_products : List Product) :
    List Product :=
  (all_products.filter (passesFilters req)).map
    (fun p => enrich_product_with_tax_shipping cfg p (get_location_from_ip none none))

/-- The part of `search_products` that runs after all merchant results are
collected into `all_products` (lines 221-262): location lookup (invoked
with no IP argument), filter, enrich, sort by total price, stock
partition, truncation to `max_results`, and response assembly.
`cachedHit` stands for `len(cached_results) > 0`. -/
def search_products (cfg : Config) (req : SearchRequest)
    (all_products : List Product) (cachedHit : Bool) : SearchResponse :=
  let location := get_location_from_ip none none
  let sorted := sortByTotal (enrichedOf cfg req all_products)
  let in_stock := sorted.filter (fun p => decide (p.availability ≠ "out_of_stock"))
  let out_of_stock := sorted.filter (fun p => decide (p.availability = "out_of_stock"))
  let final_products :=
    (if req.include_out_of_stock then in_stock ++ out_of_stock else in_stock).take
      req.max_results
  { products := final_products
    total_results := final_products.length
    cached := cachedHit
    location := location }

/-! ### Rate limiter / robots guard (`app/utils/rate_limiter.py`) -/

/-- Update a string-keyed map (Python dict assignment `m[k] = v`): the
entry for `k` is replaced, every other key keeps its binding. -/
def updateKey (l : List (String × ℚ)) (k : String) (v : ℚ) : List (String × ℚ) :=
  (k, v) :: l.filter (fun e => e.1 ≠ k)

/-- `RateLimiter.wait_if_needed(domain, delay)`, with time passed
explicitly: `now` is the `time.time()` read at entry, the returned first
component is the duration slept (`0` on the fast path), and the timestamp
written is the wall-clock time after the sleep, `now + slept` (the source
re-reads `time.time()` after `asyncio.sleep`).  `delayArg = None` and
`delayArg = 0.0` both fall back to `default_delay` (Python
`delay or self.default_delay`). -/
def wait_if_needed (defaultDelay : ℚ) (lastRequestTime : List (String × ℚ))
    (domain : String) (delayArg : Option ℚ) (now : ℚ) :
    ℚ × List (String × ℚ) :=
  let delay := match delayArg with
    | some d => if d = 0 then defaultDelay else d
    | none => defaultDelay
  let slept : ℚ :=
    match lastRequestTime.lookup domain with
    | some t => if now - t < delay then delay - (now - t) else 0
    | none => 0
  (slept, updateKey lastRequestTime domain (now + slept))

/-- Embedding of CPython `urllib.robotparser.RobotFileParser` state: the
fields `can_fetch` consults before walking parsed entries.  A freshly
constructed parser has `disallow_all = allow_all = False` and
`last_checked = 0`.  The decision made from parsed entries after a
successful `read()` is abstracted as `entryDecision` (agent, url). -/
structure RobotFileParser where
  disallowAll : Bool := false
  allowAll : Bool := false
  lastChecked : Bool := false
  entryDecision : String → String → Bool := fun _ _ => true

/-- CPython `RobotFileParser.can_fetch`: `False` when `disallow_all`,
`True` when `allow_all`, and — before any successful `read()`
(`last_checked` still `0`) — `False`. -/
def canFetch (rp : RobotFileParser) (agent url : String) : Bool :=
  if rp.disallowAll then false
  else if rp.allowAll then true
  else if !rp.lastChecked then false
  else rp.entryDecision agent url

/-- A parser as constructed by `RobotFileParser()` with neither `set_url`
nor `read` called — the state `check_robots_txt` caches when the
`robots.txt` fetch raises or returns a non-200 status. -/
def freshRobotFileParser : RobotFileParser := {}

/-- Outcome of the `httpx` fetch of `<domain>/robots.txt`. -/
inductive RobotsFetch where
  | ok (parserAfterRead : RobotFileParser)
  | non200
  | failure

/-- `RateLimiter.check_robots_txt(base_url)`, per domain.  `parsers` is the
`robots_parsers` cache; `fetch` is the outcome of the `robots.txt` request
(on status 200 the source calls `rp.set_url(...); rp.read()`, whose
resulting parser state `RobotsFetch.ok` carries; on a non-200 status or an
exception the freshly constructed parser is left untouched).  Either way
the parser is stored in the cache, and a cached domain short-circuits the
fetch entirely. -/
def check_robots_txt (parsers : List (String × RobotFileParser))
    (domain url agent : String) (fetch : RobotsFetch) :
    Bool × List (String × RobotFileParser) :=
  match parsers.lookup domain with
  | some rp => (canFetch rp agent url, parsers)
  | none =>
    let rp := match fetch with
      | .ok p => p
      | .non200 => freshRobotFileParser
      | .failure => freshRobotFileParser
    (canFetch rp agent url, (domain, rp) :: parsers)

/-! ### Search cache (`app/utils/database.py`)

The `search_cache` table has a UNIQUE `cache_key` column and writes go
through `INSERT OR REPLACE`, so the store is a key-unique association
list.  The `expires_at` column is filled with
`(datetime.now() + timedelta(hours=ttl_hours)).isoformat()` —
`"YYYY-MM-DDTHH:MM:SS[.ffffff]"`, a `'T'` between date and time — while
the read query compares it as a string against SQLite's
`datetime('now')`, which renders as `"YYYY-MM-DD HH:MM:SS"` (a space
between date and time; the column's declared type `TIMESTAMP` gives it
NUMERIC affinity, neither text converts to a number, so SQLite compares
the two TEXT values bytewise). -/

/-- A wall-clock instant as Python's naive `datetime` carries it. -/
structure PyDateTime where
  year : ℕ
  month : ℕ
  day : ℕ
  hour : ℕ
  minute : ℕ
  second : ℕ
  micro : ℕ
  deriving DecidableEq, Repr

def pad2 (n : ℕ) : List Char :=
  [Char.ofNat (48 + n / 10 % 10), Char.ofNat (48 + n % 10)]

def pad4 (n : ℕ) : List Char := pad2 (n / 100) ++ pad2 (n % 100)

def pad6 (n : ℕ) : List Char :=
  pad2 (n / 10000 % 100) ++ pad2 (n / 100 % 100) ++ pad2 (n % 100)

def dateChars (dt : PyDateTime) : List Char :=
  pad4 dt.year ++ '-' :: (pad2 dt.month ++ '-' :: pad2 dt.day)

def timeChars (dt : PyDateTime) : List Char :=
  pad2 dt.hour ++ ':' :: (pad2 dt.minute ++ ':' :: pad2 dt.second)

/-- Python `datetime.isoformat()`: `'T'` separator, microseconds appended
only when nonzero. -/
def isoChars (dt : PyDateTime) : List Char :=
  dateChars dt ++ 'T' :: timeChars dt ++
    (if dt.micro = 0 then [] else '.' :: pad6 dt.micro)

/-- SQLite `datetime('now')`: space separator, seconds resolution. -/
def sqliteNowChars (dt : PyDateTime) : List Char :=
  dateChars dt ++ ' ' :: timeChars dt

/-- Bytewise (BINARY-collation) string comparison, as SQLite's `<` on two
TEXT values. -/
def strLtB : List Char → List Char → Bool
  | [], [] => false
  | [], _ :: _ => true
  | _ :: _, [] => false
  | a :: as, b :: bs =>
    if a.toNat < b.toNat then true
    else if b.toNat < a.toNat then false
    else strLtB as bs

/-- Chronological order on naive datetimes (Python `datetime <`). -/
def dtLtB (a b : PyDateTime) : Bool :=
  if a.year ≠ b.year then a.year < b.year
  else if a.month ≠ b.month then a.month < b.month
  else if a.day ≠ b.day then a.day < b.day
  else if a.hour ≠ b.hour then a.hour < b.hour
  else if a.minute ≠ b.minute then a.minute < b.minute
  else if a.second ≠ b.second then a.second < b.second
  else a.micro < b.micro

def isLeapYear (y : ℕ) : Bool := (y % 4 = 0 && y % 100 ≠ 0) || y % 400 = 0

def daysInMonth (y m : ℕ) : ℕ :=
  if m = 2 then (if isLeapYear y then 29 else 28)
  else if m = 4 || m = 6 || m = 9 || m = 11 then 30
  else 31

def nextDay (dt : PyDateTime) : PyDateTime :=
  if dt.day < daysInMonth dt.year dt.month then { dt with day := dt.day + 1 }
  else if dt.month < 12 then { dt with day := 1, month := dt.month + 1 }
  else { dt with day := 1, month := 1, year := dt.year + 1 }

def addDays : PyDateTime → ℕ → PyDateTime
  | dt, 0 => dt
  | dt, n + 1 => addDays (nextDay dt) n

/-- `datetime.now() + timedelta(hours=h)` (Gregorian carry). -/
def addHoursDt (dt : PyDateTime) (h : ℕ) : PyDateTime :=
  let total := dt.hour + h
  addDays { dt with hour := total % 24 } (total / 24)

/-- One row of the `search_cache` table (the `data` column holds the
serialized listing set; `expires_at` holds the stored text). -/
structure CacheRow where
  query : String
  merchant : String
  data : List Product
  expiresAt : List Char
  deriving DecidableEq, Repr

/-- `Database.cache_search`: `INSERT OR REPLACE` keyed on the UNIQUE
`cache_key`; `expires_at` is the isoformat text of `now + ttl_hours`. -/
def cache_search (store : List (String × CacheRow)) (cache_key query merchant : String)
    (data : List Product) (ttl_hours : ℕ) (now : PyDateTime) :
    List (String × CacheRow) :=
  (cache_key, ⟨query, merchant, data, isoChars (addHoursDt now ttl_hours)⟩) ::
    store.filter (fun e => e.1 ≠ cache_key)

/-- `Database.get_cached_search`: the row for `cache_key` with
`expires_at > datetime('now')` compared as text, else `None`. -/
def get_cached_search (store : List (String × CacheRow)) (cache_key : String)
    (now : PyDateTime) : Option (List Product) :=
  match store.lookup cache_key with
  | some row => if strLtB (sqliteNowChars now) row.expiresAt then some row.data else none
  | none => none

/-! ### Scraper parse loops (`app/scrapers/amazon.py`,
`app/scrapers/duckduckgo.py`) -/

/-- What happens to one Amazon result container inside the loop of
`AmazonScraper._parse_results`: the selector work either yields a product,
yields an empty title (the explicit `continue`), or raises (any
exception, caught by the per-entry `except: continue`). -/
inductive AmazonEntry where
  | ok (p : Product)
  | noTitle
  | err

/-- One iteration of the `AmazonScraper._parse_results` loop: append on a
successful parse, skip on an empty title or on a caught exception. -/
def amazonStep (acc : List Product) (e : AmazonEntry) : List Product :=
  match e with
  | .ok p => acc ++ [p]
  | .noTitle => acc
  | .err => acc

/-- `AmazonScraper._parse_results`: containers are truncated to
`max_results` first, then each is parsed inside its own `try/except` —
a raising entry is skipped and the loop continues. -/
def amazon_parse_results (entries : List AmazonEntry) (max_results : ℕ) :
    List Product :=
  (entries.take max_results).foldl amazonStep []

/-- Loop body of `amazon_parse_results` without the `[:max_results]`
truncation, for stating batch-isolation facts. -/
def amazonCollect (entries : List AmazonEntry) : List Product :=
  entries.foldl amazonStep []

/-- One raw text result from `ddgs.text(...)`. -/
structure DdgResult where
  title : String
  href : String
  body : String
  deriving DecidableEq, Repr

/-- Python falsiness of the parsed price: `None` and `0.0` are falsy. -/
def pyFalsyPrice : Option ℚ → Bool
  | none => true
  | some q => q = 0

/-- The `Product(...)` built in `DuckDuckGoScraper.search` for a result
with price `q`. -/
def ddgProduct (r : DdgResult) (q : ℚ) : Product :=
  { title := r.title
    price := q
    base_price := q
    total_price := q
    image_url := ""
    direct_image_url := ""
    product_url := r.href
    merchant := "duckduckgo"
    availability := "in_stock"
    brand := none
    rating := none
    review_count := none }

/-- One iteration of the `DuckDuckGoScraper.search` loop body: `.ok none`
is `continue`, `.ok (some p)` appends `p`, `.error ()` is the pydantic
`ValidationError` raised by `Product(price=None, ...)` when no price was
parsed but a `'$'` appears in the title or body text. -/
def ddgEntryStep (r : DdgResult) : Except Unit (Option Product) :=
  let p1 := parse_price r.title
  let price := if pyFalsyPrice p1 then parse_price r.body else p1
  match price with
  | none =>
    if containsSub ['$'] r.title.data || containsSub ['$'] r.body.data then
      .error ()
    else .ok none
  | some q =>
    if q = 0 then
      if containsSub ['$'] r.title.data || containsSub ['$'] r.body.data then
        .ok (some (ddgProduct r q))
      else .ok none
    else .ok (some (ddgProduct r q))

/-- The `for r in ddg_results` loop of `DuckDuckGoScraper.search`.  The
single `try/except` wraps the whole loop, so a raising iteration
propagates out of the loop, is caught by the outer handler, and the
listings accumulated so far are returned. -/
def ddgSearchLoop : List DdgResult → List Product → List Product
  | [], acc => acc
  | r :: rest, acc =>
    match ddgEntryStep r with
    | .error _ => acc
    | .ok none => ddgSearchLoop rest acc
    | .ok (some p) => ddgSearchLoop rest (acc ++ [p])

/-- `DuckDuckGoScraper.search` from the raw `ddgs.text` results on. -/
def ddg_search (results : List DdgResult) : List Product :=
  ddgSearchLoop results []

/-- Whether the loop body raises on this result. -/
def ddgRaises (r : DdgResult) : Bool :=
  match ddgEntryStep r with
  | .error _ => true
  | .ok _ => false

/-! ### Concrete fixtures used in example conjuncts, witnesses and
counterexamples -/

/-- Boolean key-equality predicate used to state sort stability. -/
def hasTotal (t : ℚ) (p : Product) : Bool := decide (p.total_price = t)

/-- Configuration with shipping and tax both disabled (totals equal base
prices, matching the spec's sort example). -/
def exConfigOff : Config := { shippingEnabled := false, taxEnabled := false, defaultTaxRate := 0 }

/-- Configuration with a nonzero configured default tax rate. -/
def exConfigRated : Config := { shippingEnabled := true, taxEnabled := true, defaultTaxRate := 1/20 }

/-- A raw scraped listing (pre-enrichment: total equals base). -/
def mkListing (t : String) (b : ℚ) (av : String) : Product :=
  { title := t, price := b, base_price := b, total_price := b, image_url := "",
    direct_image_url := "", product_url := "", merchant := "amazon", availability := av }

def exC1Products : List Product :=
  [mkListing "razor handle" 30 "in_stock", mkListing "razor blades" 10 "in_stock",
   mkListing "shave gel" 20 "in_stock", mkListing "travel razor" 5 "out_of_stock"]

def exC1Request : SearchRequest := { query := "razor" }

def exC1RequestNoOos : SearchRequest := { query := "razor", include_out_of_stock := false }

def exC5Request : SearchRequest :=
  { query := "razor", min_price := some 15, max_price := some 25 }

def exC5Products : List Product :=
  [mkListing "cheap razor" 10 "in_stock", mkListing "mid razor" 20 "in_stock",
   mkListing "lux razor" 30 "in_stock"]

/-- The enriched product the response serves for the base-20 listing. -/
def exEnriched20 : Product :=
  enrich_product_with_tax_shipping exConfigOff (mkListing "mid razor" 20 "in_stock")
    (get_location_from_ip none none)

/-- The enriched product the response serves for the base-10 listing of the
C1 fixture. -/
def exEnriched10 : Product :=
  enrich_product_with_tax_shipping exConfigOff (mkListing "razor blades" 10 "in_stock")
    (get_location_from_ip none none)

/-- The enriched product served for the base-10 listing of the C1 fixture
under `exConfigRated` (tax enabled; still taxed at zero for lack of a
location). -/
def exRatedEnriched10 : Product :=
  enrich_product_with_tax_shipping exConfigRated (mkListing "razor blades" 10 "in_stock")
    (get_location_from_ip none none)

def exDdgGood1 : DdgResult := { title := "Item A 19.99", href := "https://a", body := "" }

/-- A result with no parsable digits but a dollar sign: `parse_price`
yields `None` for title and body, the `'$'` branch falls through, and
`Product(price=None, ...)` raises. -/
def exDdgBad : DdgResult := { title := "Big $ Sale", href := "https://b", body := "great deal" }

def exDdgGood2 : DdgResult := { title := "Item B 5.25", href := "https://c", body := "" }

def exPutTime : PyDateTime := ⟨2026, 10, 12, 10, 0, 0, 0⟩

def exLaterSameDay : PyDateTime := ⟨2026, 10, 12, 12, 0, 0, 0⟩

def exNextDay : PyDateTime := ⟨2026, 10, 13, 0, 0, 1, 0⟩

def exCacheListing : Product := mkListing "cached razor" 12 "in_stock"

def exCacheListing2 : Product := mkListing "cached razor v2" 14 "in_stock"

/-! ## Theorems -/

/-! ### Stability of the total-price sort -/

theorem filter_orderedInsert_of_eq (t : ℚ) (a : Product) (ha : a.total_price = t) :
    ∀ l : List Product,
      (List.orderedInsert totalLe a l).filter (hasTotal t) = a :: l.filter (hasTotal t) := by
  intro l
  induction l with
  | nil => simp [List.orderedInsert, hasTotal, ha]
  | cons b l ih =>
    by_cases h : totalLe a b
    · simp [List.orderedInsert, h, hasTotal, ha]
    · have hb : b.total_price ≠ t := by
        intro hbt
        exact h (show totalLe a b by simp [totalLe, ha, hbt])
      simp [List.orderedInsert, h, hasTotal, hb, ih]

theorem filter_orderedInsert_of_ne (t : ℚ) (a : Product) (ha : a.total_price ≠ t) :
    ∀ l : List Product,
      (List.orderedInsert totalLe a l).filter (hasTotal t) = l.filter (hasTotal t) := by
  intro l
  induction l with
  | nil => simp [List.orderedInsert, hasTotal, ha]
  | cons b l ih =>
    by_cases h : totalLe a b
    · simp [List.orderedInsert, h, hasTotal, ha]
    · simp only [List.orderedInsert, if_neg h, List.filter_cons]
      rw [ih]

theorem filter_sortByTotal (t : ℚ) (l : List Product) :
    (sortByTotal l).filter (hasTotal t) = l.filter (hasTotal t) := by
  induction l with
  | nil => rfl
  | cons a l ih =>
    simp only [sortByTotal] at ih ⊢
    show (List.orderedInsert totalLe a (List.insertionSort totalLe l)).filter (hasTotal t) = _
    by_cases ha : a.total_price = t
    · rw [filter_orderedInsert_of_eq t a ha, List.filter_cons_of_pos, ih]
      simp [hasTotal, ha]
    · rw [filter_orderedInsert_of_ne t a ha, List.filter_cons_of_neg, ih]
      simp [hasTotal, ha]

/-! ### C1 -/

unseal Rat.add Rat.mul Rat.inv Rat.sub in
/-- C1: the final product list of a search is obtained by stably sorting
the enriched listings ascending by total price (the sorted list is a
permutation of the enriched list, is sorted by total price, and preserves
the original relative order of listings with equal totals), then placing
all non-out-of-stock listings first followed — only when
`include_out_of_stock` is set — by the out-of-stock listings (which are
otherwise dropped), and truncating to `max_results` as the last step.  On
in-stock totals [30, 10, 20] and an out-of-stock total 5 this yields
[10, 20, 30, 5] with out-of-stock included and [10, 20, 30] without. -/
theorem C1_sort_stock_partition_truncate (cfg : Config) (req : SearchRequest)
    (all_products : List Product) (hit : Bool) :
    (sortByTotal (enrichedOf cfg req all_products)).Perm (enrichedOf cfg req all_products) ∧
    List.Sorted totalLe (sortByTotal (enrichedOf cfg req all_products)) ∧
    (∀ t : ℚ, (sortByTotal (enrichedOf cfg req all_products)).filter (hasTotal t) =
      (enrichedOf cfg req all_products).filter (hasTotal t)) ∧
    (search_products cfg req all_products hit).products =
      ((if req.include_out_of_stock then
          (sortByTotal (enrichedOf cfg req all_products)).filter
            (fun p => decide (p.availability ≠ "out_of_stock")) ++
          (sortByTotal (enrichedOf cfg req all_products)).filter
            (fun p => decide (p.availability = "out_of_stock"))
        else
          (sortByTotal (enrichedOf cfg req all_products)).filter
            (fun p => decide (p.availability ≠ "out_of_stock"))).take req.max_results) ∧
    (search_products exConfigOff exC1Request exC1Products true).products.map
      Product.total_price = [10, 20, 30, 5] ∧
    (search_products exConfigOff exC1RequestNoOos exC1Products true).products.map
      Product.total_price = [10, 20, 30] :=
  ⟨List.perm_insertionSort totalLe _, List.sorted_insertionSort totalLe _,
   fun t => filter_sortByTotal t _, rfl, by decide, by decide⟩

/-! ### Membership plumbing shared by C4, C5 and C10 -/

theorem mem_search_products {cfg : Config} {req : SearchRequest}
    {all_products : List Product} {hit : Bool} {p : Product}
    (hp : p ∈ (search_products cfg req all_products hit).products) :
    ∃ q, q ∈ all_products ∧ passesFilters req q = true ∧
      p = enrich_product_with_tax_shipping cfg q (get_location_from_ip none none) := by
  have h1 : p ∈
      (if req.include_out_of_stock then
        (sortByTotal (enrichedOf cfg req all_products)).filter
          (fun p => decide (p.availability ≠ "out_of_stock")) ++
        (sortByTotal (enrichedOf cfg req all_products)).filter
          (fun p => decide (p.availability = "out_of_stock"))
       else
        (sortByTotal (enrichedOf cfg req all_products)).filter
          (fun p => decide (p.availability ≠ "out_of_stock"))) :=
    List.mem_of_mem_take hp
  have h2 : p ∈ sortByTotal (enrichedOf cfg req all_products) := by
    by_cases hin : req.include_out_of_stock = true
    · rw [if_pos hin] at h1
      rcases List.mem_append.mp h1 with h | h
      · exact (List.mem_filter.mp h).1
      · exact (List.mem_filter.mp h).1
    · rw [if_neg hin] at h1
      exact (List.mem_filter.mp h1).1
  have h3 : p ∈ enrichedOf cfg req all_products :=
    (List.perm_insertionSort totalLe _).subset h2
  rcases List.mem_map.mp h3 with ⟨q, hq, hpq⟩
  rcases List.mem_filter.mp hq with ⟨hq_mem, hq_pass⟩
  exact ⟨q, hq_mem, hq_pass, hpq.symm⟩

theorem enrich_base_price (cfg : Config) (q : Product) (loc : Option Location) :
    (enrich_product_with_tax_shipping cfg q loc).base_price = q.base_price := rfl

theorem enrich_title (cfg : Config) (q : Product) (loc : Option Location) :
    (enrich_product_with_tax_shipping cfg q loc).title = q.title := rfl

theorem enrich_total_price (cfg : Config) (q : Product) (loc : Option Location) :
    (enrich_product_with_tax_shipping cfg q loc).total_price =
      calculate_total (enrich_product_with_tax_shipping cfg q loc).base_price
        (enrich_product_with_tax_shipping cfg q loc).shipping_cost
        (enrich_product_with_tax_shipping cfg q loc).tax := rfl

theorem enrich_tax_of_no_location (cfg : Config) (q : Product) :
    (enrich_product_with_tax_shipping cfg q (get_location_from_ip none none)).tax = 0 := by
  simp [enrich_product_with_tax_shipping, get_location_from_ip]

theorem nil_containsSub : ∀ hay : List Char, containsSub [] hay = true
  | [] => rfl
  | _ :: _ => by simp [containsSub, startsWith]

/-! ### C4 -/

/-- C4: every product in a search response satisfies
`total_price = round(base_price + shipping_cost + tax, 2)`: enrichment
computes the total with `calculate_total`, which equals
`round(base + shipping + tax, 2)` on all triples, enrichment builds a new
product value (the embedding is a pure structure update on the immutable
pydantic model), and no later pipeline step changes `total_price`. -/
theorem C4_total_price_invariant (cfg : Config) (req : SearchRequest)
    (all_products : List Product) (hit : Bool) :
    (∀ p ∈ (search_products cfg req all_products hit).products,
        p.total_price = pyRound2 (p.base_price + p.shipping_cost + p.tax)) ∧
    ∀ b s t : ℚ, calculate_total b s t = pyRound2 (b + s + t) := by
  refine ⟨fun p hp => ?_, fun b s t => rfl⟩
  rcases mem_search_products hp with ⟨q, -, -, rfl⟩
  rfl

unseal Rat.add Rat.mul Rat.inv Rat.sub in
/-- Witness for C4 at a concrete response member. -/
theorem C4_total_price_invariant_witness :
    exEnriched10 ∈ (search_products exConfigOff exC1Request exC1Products true).products ∧
    exEnriched10.total_price =
      pyRound2 (exEnriched10.base_price + exEnriched10.shipping_cost + exEnriched10.tax) :=
  ⟨by decide,
   (C4_total_price_invariant exConfigOff exC1Request exC1Products true).1 exEnriched10
     (by decide)⟩

/-! ### C5 -/

unseal Rat.add Rat.mul Rat.inv Rat.sub in
/-- C5: a listing appears in the search result only if its base price
(unchanged by enrichment) lies within the inclusive request bounds, and
only if the requested brand, when given, occurs case-insensitively as a
substring of the title (an empty brand string is Python-falsy, and the
empty string is a substring of every title, so the condition holds
vacuously there); on base prices [10, 20, 30] with `min_price = 15` and
`max_price = 25` exactly the base-20 listing survives — and with shipping
enabled the surviving listing's enriched total (25.99) exceeds
`max_price`, showing the bound applies to the base price, not the
enriched total. -/
theorem C5_price_and_brand_filters (cfg : Config) (req : SearchRequest)
    (all_products : List Product) (hit : Bool) :
    (∀ p ∈ (search_products cfg req all_products hit).products,
        (∀ m, req.min_price = some m → m ≤ p.base_price) ∧
        (∀ m, req.max_price = some m → p.base_price ≤ m) ∧
        (∀ b, req.brand = some b →
          containsSub (pyLower b).data (pyLower p.title).data = true)) ∧
    (search_products exConfigOff exC5Request exC5Products true).products.map
      Product.base_price = [20] ∧
    (search_products exConfigRated exC5Request exC5Products true).products.map
      Product.base_price = [20] ∧
    (search_products exConfigRated exC5Request exC5Products true).products.map
      Product.total_price = [2599/100] := by
  refine ⟨fun p hp => ?_, by decide, by decide, by decide⟩
  rcases mem_search_products hp with ⟨q, -, hpass, rfl⟩
  rw [passesFilters, Bool.and_eq_true, Bool.and_eq_true] at hpass
  rcases hpass with ⟨⟨hmin, hmax⟩, hbrand⟩
  refine ⟨fun m hm => ?_, fun m hm => ?_, fun b hb => ?_⟩
  · rw [hm] at hmin
    simpa [enrich_base_price, not_lt] using hmin
  · rw [hm] at hmax
    simpa [enrich_base_price, not_lt] using hmax
  · rw [hb] at hbrand
    rw [enrich_title]
    by_cases hb0 : b = ""
    · subst hb0
      have h0 : (pyLower "").data = [] := by decide
      rw [h0]
      exact nil_containsSub _
    · simpa [hb0] using hbrand

unseal Rat.add Rat.mul Rat.inv Rat.sub in
/-- Witness for C5 at a concrete response member. -/
theorem C5_price_and_brand_filters_witness :
    exEnriched20 ∈ (search_products exConfigOff exC5Request exC5Products true).products ∧
    (∀ m, exC5Request.min_price = some m → m ≤ exEnriched20.base_price) :=
  ⟨by decide,
   ((C5_price_and_brand_filters exConfigOff exC5Request exC5Products true).1 exEnriched20
     (by decide)).1⟩

/-! ### C10 -/

/-- C10: the search endpoint calls the location lookup with no IP, which
returns `None` before any network access, so the response's `location`
field is always `None` and every returned product has `tax = 0`,
whatever the tax-enabled configuration says. -/
theorem C10_no_ip_no_location_no_tax (cfg : Config) (req : SearchRequest)
    (all_products : List Product) (hit : Bool) :
    (∀ netResult, get_location_from_ip none netResult = none) ∧
    (search_products cfg req all_products hit).location = none ∧
    ∀ p ∈ (search_products cfg req all_products hit).products, p.tax = 0 := by
  refine ⟨fun _ => rfl, rfl, fun p hp => ?_⟩
  rcases mem_search_products hp with ⟨q, -, -, rfl⟩
  exact enrich_tax_of_no_location cfg q

unseal Rat.add Rat.mul Rat.inv Rat.sub in
/-- Witness for C10 with tax enabled in the configuration. -/
theorem C10_no_ip_no_location_no_tax_witness :
    (search_products exConfigRated exC1Request exC1Products true).location = none ∧
    exRatedEnriched10.tax = 0 :=
  ⟨(C10_no_ip_no_location_no_tax exConfigRated exC1Request exC1Products true).2.1,
   (C10_no_ip_no_location_no_tax exConfigRated exC1Request exC1Products true).2.2
     exRatedEnriched10 (by decide)⟩

/-! ### C7 -/

theorem firstNumericValue_eq_none_iff (cs : List Char) :
    firstNumericValue cs = none ↔ ∀ c ∈ cs, isDigitC c = false := by
  induction cs with
  | nil => simp [firstNumericValue]
  | cons c rest ih =>
    by_cases h : isDigitC c
    · simp [firstNumericValue, h]
    · simp only [Bool.not_eq_true] at h
      simp [firstNumericValue, h, ih]

theorem mem_dropWhile_of_mem {p : Char → Bool} {c : Char} (hc : p c = false) :
    ∀ {l : List Char}, c ∈ l → c ∈ l.dropWhile p := by
  intro l hl
  induction l with
  | nil => cases hl
  | cons a l ih =>
    by_cases ha : p a
    · rw [List.dropWhile_cons_of_pos ha]
      rcases List.mem_cons.mp hl with rfl | h
      · rw [ha] at hc; cases hc
      · exact ih h
    · rw [List.dropWhile_cons_of_neg ha]
      exact hl

theorem mem_pyStrip_of_mem {c : Char} (hc : pyIsSpace c = false) {l : List Char}
    (hl : c ∈ l) : c ∈ pyStrip l := by
  unfold pyStrip
  rw [List.mem_reverse]
  exact mem_dropWhile_of_mem hc (List.mem_reverse.mpr (mem_dropWhile_of_mem hc hl))

theorem digit_not_space {c : Char} (h : isDigitC c = true) : pyIsSpace c = false := by
  simp only [isDigitC, Bool.and_eq_true, decide_eq_true_eq] at h
  simp only [pyIsSpace, Bool.or_eq_false_iff, decide_eq_false_iff_not]
  omega

theorem digit_ne_comma {c : Char} (h : isDigitC c = true) : c ≠ ',' := by
  intro hc
  subst hc
  simp [isDigitC] at h

/-- A digit survives the strip-and-remove-commas preprocessing, and
conversely the preprocessing introduces no characters. -/
theorem noDigit_processed_iff (l : List Char) :
    (∀ c ∈ removeCommas (pyStrip l), isDigitC c = false) ↔
      ∀ c ∈ l, isDigitC c = false := by
  constructor
  · intro h c hcl
    by_contra hd
    rw [Bool.not_eq_false] at hd
    have hmem : c ∈ removeCommas (pyStrip l) := by
      unfold removeCommas
      refine List.mem_filter.mpr ⟨mem_pyStrip_of_mem (digit_not_space hd) hcl, ?_⟩
      simpa using digit_ne_comma hd
    rw [h c hmem] at hd
    cases hd
  · intro h c hc
    have hc1 : c ∈ pyStrip l := (List.mem_filter.mp hc).1
    have hc2 : c ∈ l := by
      unfold pyStrip at hc1
      rw [List.mem_reverse] at hc1
      have := (List.dropWhile_sublist pyIsSpace).subset hc1
      rw [List.mem_reverse] at this
      exact (List.dropWhile_sublist pyIsSpace).subset this
    exact h c hc2

unseal Rat.add Rat.mul Rat.inv Rat.sub in
/-- C7: `parse_price` is total (the embedding is a plain function, with no
exceptional path: the one `try/except` in the source guards a `float`
conversion that cannot fail on a match of the regex), it strips commas and
ignores currency symbols, it returns `None` exactly when the input is empty
or contains no digit, and on the remaining inputs it returns the value of
the first numeric substring — pinned here on the repository's own test
inputs. -/
theorem C7_parse_price (s : String) :
    (parse_price s = none ↔ (s.data = [] ∨ ∀ c ∈ s.data, isDigitC c = false)) ∧
    parse_price "$10.99" = some (1099/100) ∧
    parse_price "10.99" = some (1099/100) ∧
    parse_price "$1,234.56" = some (123456/100) ∧
    parse_price "" = none ∧
    parse_price "no price here" = none := by
  refine ⟨?_, by decide, by decide, by decide, by decide, by decide⟩
  by_cases hs : s.data = []
  · simp [parse_price, hs]
  · simp [parse_price, hs, firstNumericValue_eq_none_iff, noDigit_processed_iff]

/-- Witness for C7: the characterization applied at a symbol-only input. -/
theorem C7_parse_price_witness : parse_price "Big $ Sale" = none :=
  (C7_parse_price "Big $ Sale").1.mpr (Or.inr (by decide))

/-! ### C9 -/

theorem lookup_updateKey_self (l : List (String × ℚ)) (k : String) (v : ℚ) :
    (updateKey l k v).lookup k = some v := by
  simp [updateKey, List.lookup]

theorem lookup_filter_ne (k d : String) (hdk : (d == k) = false) :
    ∀ l : List (String × ℚ),
      (l.filter (fun e => !decide (e.1 = k))).lookup d = l.lookup d := by
  intro l
  induction l with
  | nil => rfl
  | cons e l ih =>
    by_cases he : e.1 = k
    · have hde : (d == e.1) = false := by rw [he]; exact hdk
      simp [List.filter_cons, he, List.lookup, hde, hdk, ih]
    · cases hde : (d == e.1) <;> simp [List.filter_cons, he, List.lookup, hde, ih]

theorem lookup_updateKey_ne (l : List (String × ℚ)) (k d : String) (v : ℚ)
    (hd : d ≠ k) : (updateKey l k v).lookup d = l.lookup d := by
  have hdk : (d == k) = false := by simp [hd]
  simp only [updateKey, ne_eq, decide_not, List.lookup, hdk]
  exact lookup_filter_ne k d hdk l

unseal Rat.add Rat.mul Rat.inv Rat.sub in
/-- C9: `wait_if_needed` sleeps only until `delay` seconds have passed
since the domain's recorded last request (an immediately repeated call to
the same domain therefore sleeps exactly `delay`), writes the domain's
last-request timestamp unconditionally (fast path included, with the
post-sleep clock value), and neither reads nor writes any other domain's
entry (a call for a different domain sees exactly the state it would have
seen without the first call). -/
theorem C9_wait_if_needed (defaultDelay : ℚ) (st : List (String × ℚ))
    (dA dB : String) (delay now t2 : ℚ) (hdelay : 0 < delay) (hne : dB ≠ dA) :
    ((wait_if_needed defaultDelay (wait_if_needed defaultDelay st dA (some delay) now).2
        dA (some delay) (now + (wait_if_needed defaultDelay st dA (some delay) now).1)).1
      = delay) ∧
    ((wait_if_needed defaultDelay st dA (some delay) now).2.lookup dA =
      some (now + (wait_if_needed defaultDelay st dA (some delay) now).1)) ∧
    ((wait_if_needed defaultDelay st dA (some delay) now).2.lookup dB = st.lookup dB) ∧
    ((wait_if_needed defaultDelay (wait_if_needed defaultDelay st dA (some delay) now).2
        dB (some delay) t2).1 =
      (wait_if_needed defaultDelay st dB (some delay) t2).1) := by
  have hdz : delay ≠ 0 := ne_of_gt hdelay
  have hupd : (wait_if_needed defaultDelay st dA (some delay) now).2 =
      updateKey st dA (now + (wait_if_needed defaultDelay st dA (some delay) now).1) := by
    simp [wait_if_needed]
  refine ⟨?_, ?_, ?_, ?_⟩
  · rw [hupd]
    simp only [wait_if_needed, hdz, if_neg hdz, lookup_updateKey_self]
    simp [sub_self, hdelay]
  · rw [hupd, lookup_updateKey_self]
  · rw [hupd, lookup_updateKey_ne st dA dB _ hne]
  · rw [hupd]
    simp only [wait_if_needed, lookup_updateKey_ne st dA dB _ hne]

unseal Rat.add Rat.mul Rat.inv Rat.sub in
/-- Witness for C9 at concrete domains and times. -/
theorem C9_wait_if_needed_witness :
    (wait_if_needed 1 (wait_if_needed 1 [] "domainA" (some 1) 0).2 "domainA" (some 1)
        (0 + (wait_if_needed 1 [] "domainA" (some 1) 0).1)).1 = 1 ∧
    (wait_if_needed 1 (wait_if_needed 1 [] "domainA" (some 1) 0).2 "domainB" (some 1) 0).1 =
      (wait_if_needed 1 [] "domainB" (some 1) 0).1 :=
  ⟨(C9_wait_if_needed 1 [] "domainA" "domainB" 1 0 0 (by norm_num) (by decide)).1,
   (C9_wait_if_needed 1 [] "domainA" "domainB" 1 0 0 (by norm_num) (by decide)).2.2.2⟩

/-! ### C2 -/

/-- C2: evaluation of `check_robots_txt` at the failing inputs the claim
covers.  When the `robots.txt` fetch raises, or returns a non-200 status,
the source caches a freshly constructed `RobotFileParser` — and CPython's
`can_fetch` returns `False` for a parser that was never `read()`
(`last_checked` is still 0), so the domain is treated as fully BLOCKED,
not fully permissive: the scraper returns no results for it.  The parser
is indeed cached for the process lifetime, so the `False` answer repeats
without a re-fetch (final conjunct: a later call that could fetch a
permissive ruleset still answers from the cached empty parser). -/
theorem C2_robots_fetch_failure_blocks :
    (∀ agent url, canFetch freshRobotFileParser agent url = false) ∧
    (check_robots_txt [] "https://www.amazon.com" "https://www.amazon.com/s?k=razor"
      "CloseShave-Bot/1.0" RobotsFetch.failure).1 = false ∧
    (check_robots_txt [] "https://www.amazon.com" "https://www.amazon.com/s?k=razor"
      "CloseShave-Bot/1.0" RobotsFetch.non200).1 = false ∧
    ((check_robots_txt [] "https://www.amazon.com" "https://www.amazon.com/s?k=razor"
      "CloseShave-Bot/1.0" RobotsFetch.failure).2.lookup "https://www.amazon.com").isSome
      = true ∧
    (check_robots_txt
      (check_robots_txt [] "https://www.amazon.com" "https://www.amazon.com/s?k=razor"
        "CloseShave-Bot/1.0" RobotsFetch.failure).2
      "https://www.amazon.com" "https://www.amazon.com/s?k=razor" "CloseShave-Bot/1.0"
      (RobotsFetch.ok { allowAll := true, lastChecked := true })).1 = false :=
  ⟨fun _ _ => rfl, rfl, rfl, rfl, rfl⟩

/-! ### C3 -/

/-- C3: evaluation of the cache at the claim's failing input.  The parts
of the claim that hold, hold here: an immediate `get` after `put` returns
the listing set, and a second `put` to the same key replaces the row
(single row, new content).  But the expiry comparison is broken: `put` at
2026-10-12 10:00:00 with a one-hour TTL records the expiry
`"2026-10-12T11:00:00"` (Python isoformat), and `get` at 12:00:00 — a time
strictly past the expiry — still returns the listings, because SQLite
compares the stored text with `datetime('now')`s `"2026-10-12 12:00:00"`
bytewise and `'T' > ' '` makes any same-day isoformat expiry sort after
any same-day probe.  The entry only lapses once the date part moves past
(final conjunct). -/
theorem C3_cache_roundtrip_and_expiry :
    get_cached_search (cache_search [] "k" "razor" "amazon" [exCacheListing] 1 exPutTime)
      "k" exPutTime = some [exCacheListing] ∧
    get_cached_search
      (cache_search (cache_search [] "k" "razor" "amazon" [exCacheListing] 1 exPutTime)
        "k" "razor" "amazon" [exCacheListing2] 2 exPutTime)
      "k" exPutTime = some [exCacheListing2] ∧
    (cache_search (cache_search [] "k" "razor" "amazon" [exCacheListing] 1 exPutTime)
        "k" "razor" "amazon" [exCacheListing2] 2 exPutTime).length = 1 ∧
    dtLtB (addHoursDt exPutTime 1) exLaterSameDay = true ∧
    get_cached_search (cache_search [] "k" "razor" "amazon" [exCacheListing] 1 exPutTime)
      "k" exLaterSameDay = some [exCacheListing] ∧
    get_cached_search (cache_search [] "k" "razor" "amazon" [exCacheListing] 1 exPutTime)
      "k" exNextDay = none := by
  refine ⟨by decide, by decide, by decide, by decide, by decide, by decide⟩

/-! ### C6 -/

unseal Rat.add Rat.mul Rat.inv Rat.sub in
/-- C6 counterexample: with a configured default rate of 1/20, a present
but unknown state code "ZZ" yields the hardcoded fallback 0, not the
configured default — refuting the claim that every unknown state gets the
configured default rate. -/
theorem C6_counterexample_unknown_state :
    get_tax_rate exConfigRated (some "ZZ") = 0 ∧
    exConfigRated.defaultTaxRate = 1/20 ∧ (0 : ℚ) ≠ 1/20 := by
  refine ⟨by decide, by decide, by decide⟩

/-- C6 amended: `get_tax_rate` is a table lookup by upper-cased
two-letter state code; an absent state (`None` or the Python-falsy empty
string) yields the configured default rate, while a present state that is
not in the table yields the hardcoded fallback 0.0 regardless of the
configured default. -/
theorem C6_tax_rate_lookup (cfg : Config) (s : String) :
    get_tax_rate cfg none = cfg.defaultTaxRate ∧
    get_tax_rate cfg (some "") = cfg.defaultTaxRate ∧
    (s ≠ "" → STATE_TAX_RATES.lookup (pyUpper s) = none → get_tax_rate cfg (some s) = 0) ∧
    (∀ r, s ≠ "" → STATE_TAX_RATES.lookup (pyUpper s) = some r →
      get_tax_rate cfg (some s) = r) := by
  refine ⟨rfl, rfl, fun hs hl => ?_, fun r hs hl => ?_⟩
  · simp [get_tax_rate, hs, hl]
  · simp [get_tax_rate, hs, hl]

unseal Rat.add Rat.mul Rat.inv Rat.sub in
/-- Witness for C6 amended: the unknown-state and known-state branches at
concrete inputs. -/
theorem C6_tax_rate_lookup_witness :
    get_tax_rate exConfigRated (some "ZZ") = 0 ∧
    get_tax_rate exConfigRated (some "ca") = 725/10000 :=
  ⟨(C6_tax_rate_lookup exConfigRated "ZZ").2.2.1 (by decide) (by decide),
   (C6_tax_rate_lookup exConfigRated "ca").2.2.2 (725/10000) (by decide) (by decide)⟩

/-! ### C8 -/

theorem amazonStep_foldl (es : List AmazonEntry) :
    ∀ acc, es.foldl amazonStep acc = acc ++ amazonCollect es := by
  induction es with
  | nil => intro acc; simp [amazonCollect]
  | cons e es ih =>
    intro acc
    show es.foldl amazonStep (amazonStep acc e) = acc ++ amazonCollect (e :: es)
    have h2 : amazonCollect (e :: es) = amazonStep [] e ++ amazonCollect es := by
      show es.foldl amazonStep (amazonStep [] e) = _
      rw [ih]
    rw [ih, h2]
    cases e <;> simp [amazonStep]

theorem amazonCollect_append (l1 l2 : List AmazonEntry) :
    amazonCollect (l1 ++ l2) = amazonCollect l1 ++ amazonCollect l2 := by
  show (l1 ++ l2).foldl amazonStep [] = _
  rw [List.foldl_append]
  exact amazonStep_foldl l2 _

theorem ddgSearchLoop_append_raise (r : DdgResult) (hr : ddgRaises r = true)
    (l2 : List DdgResult) :
    ∀ l1 : List DdgResult, (∀ x ∈ l1, ddgRaises x = false) →
      ∀ acc, ddgSearchLoop (l1 ++ r :: l2) acc = ddgSearchLoop l1 acc := by
  intro l1
  induction l1 with
  | nil =>
    intro _ acc
    simp only [List.nil_append]
    unfold ddgRaises at hr
    rcases hstep : ddgEntryStep r with u | o
    · simp [ddgSearchLoop, hstep]
    · rw [hstep] at hr
      cases hr
  | cons x l1 ih =>
    intro h1 acc
    have hx : ddgRaises x = false := h1 x (List.mem_cons_self x l1)
    have h1' : ∀ y ∈ l1, ddgRaises y = false := fun y hy => h1 y (List.mem_cons_of_mem x hy)
    unfold ddgRaises at hx
    rcases hstep : ddgEntryStep x with u | o
    · rw [hstep] at hx
      cases hx
    · rcases o with _ | p
      · simp only [List.cons_append, ddgSearchLoop, hstep]
        exact ih h1' acc
      · simp only [List.cons_append, ddgSearchLoop, hstep]
        exact ih h1' (acc ++ [p])

unseal Rat.add Rat.mul Rat.inv Rat.sub in
/-- C8 counterexample: a batch [good, malformed, good] given to the
DuckDuckGo scraper.  The third entry parses fine on its own (first
conjunct), the second entry's loop iteration raises (second conjunct:
no digits anywhere but a `'$'` in the title, so `Product` is constructed
with `price=None` and pydantic rejects it), and the whole batch returns
only the FIRST entry's listing — the third is lost, refuting the claim
that a single malformed entry only loses that entry for every scraper. -/
theorem C8_counterexample_ddg_truncation :
    ddg_search [exDdgGood2] = [ddgProduct exDdgGood2 (21/4)] ∧
    ddgRaises exDdgBad = true ∧
    ddg_search [exDdgGood1, exDdgBad, exDdgGood2] = [ddgProduct exDdgGood1 (1999/100)] :=
  ⟨by decide, by decide, by decide⟩

/-- C8 amended: in the structural scrapers (Amazon shown), each entry is
parsed inside its own `try/except`, so a raising entry is skipped and
every other entry's listing is kept (truncation to `max_results` happens
on the raw containers before parsing); the DuckDuckGo scraper instead
wraps its entire result loop in one `try/except`, so the first raising
entry stops the loop and only the listings parsed before it are returned
— later entries are dropped, though no exception reaches the caller. -/
theorem C8_per_entry_isolation (l1 l2 : List AmazonEntry) (es : List AmazonEntry)
    (m : ℕ) (d1 d2 : List DdgResult) (r : DdgResult) :
    amazonCollect (l1 ++ AmazonEntry.err :: l2) = amazonCollect l1 ++ amazonCollect l2 ∧
    amazon_parse_results es m = amazonCollect (es.take m) ∧
    (ddgRaises r = true → (∀ x ∈ d1, ddgRaises x = false) →
      ddg_search (d1 ++ r :: d2) = ddg_search d1) := by
  refine ⟨?_, rfl, fun hr h1 => ddgSearchLoop_append_raise r hr d2 d1 h1 []⟩
  rw [amazonCollect_append]
  rfl

unseal Rat.add Rat.mul Rat.inv Rat.sub in
/-- Witness for C8 amended at concrete batches. -/
theorem C8_per_entry_isolation_witness :
    amazonCollect ([AmazonEntry.ok exCacheListing] ++ AmazonEntry.err ::
        [AmazonEntry.ok exCacheListing2]) =
      amazonCollect [AmazonEntry.ok exCacheListing] ++
        amazonCollect [AmazonEntry.ok exCacheListing2] ∧
    ddg_search ([exDdgGood1] ++ exDdgBad :: [exDdgGood2]) = ddg_search [exDdgGood1] :=
  ⟨(C8_per_entry_isolation [AmazonEntry.ok exCacheListing] [AmazonEntry.ok exCacheListing2]
      [] 0 [] [] exDdgBad).1,
   (C8_per_entry_isolation [] [] [] 0 [exDdgGood1] [exDdgGood2] exDdgBad).2.2
     (by decide) (by decide)⟩

end CloseShave
